import Mathlib

/-!
Shallow embedding of the Schedule Consistency Engine of the agentic-scheduler
repository, together with proofs about the claims of its specification.

Modelling conventions, used throughout:

* Times of day are represented as minutes since midnight (`Nat`).  The source
  stores them as canonical `"HH:MM"` strings and compares them after parsing
  with `strptime`; for well-formed canonical strings, string equality and
  lexicographic order agree with equality and order on minutes, so this
  representation is faithful on the well-formed inputs the claims are about.
  The `ValueError` branch of the source (malformed time strings) has no
  counterpart here: every embedded event carries parseable times.
* Dates are kept as strings (`"YYYY-MM-DD"`), compared for equality and
  lexicographically exactly as the source compares them.
* Python's `sorted`/`list.sort` are stable sorts; they are embedded as
  `List.insertionSort` with a total preorder, which places an earlier element
  before a later one whenever their keys are tied, exactly like the source.
* The executor is embedded in local-only mode (no Calendar Store collaborator
  wired, `self.calendar_agent is None`), which is the mode all the claims
  below are decided in: every branch of the source that is guarded by
  `self.calendar_agent` collapses.  The human-readable `message` strings of
  results are presentation-only and are not modelled.
* The blocking confirmation prompt is modelled by an `answer : Option String`
  parameter: `some s` is the line read from the user, `none` is the
  `EOFError` branch (non-interactive mode).
-/

namespace AgenticScheduler

/-- Python's `str.lower()`: character-wise lowercasing (the titles and
locations the engine compares are ASCII). -/
def pyLower (s : String) : String := ⟨s.data.map Char.toLower⟩

/-- Python's `str.strip()`: drop leading and trailing whitespace. -/
def pyStrip (s : String) : String :=
  ⟨((s.data.dropWhile Char.isWhitespace).reverse.dropWhile Char.isWhitespace).reverse⟩

/-- Event categories, from `src/models/schedule_item.py` (`EventType`). -/
inductive EventType where
  | LECTURE | LAB | EXAM | MEETING | PRACTICE | OTHER
deriving DecidableEq, Repr

/-- A calendar event, from `src/models/schedule_item.py` (`ScheduleItem`).
`start_time` and `end_time` are minutes since midnight (see the module
conventions); `event_id` is the optional Calendar Store binding. -/
structure ScheduleItem where
  course : String
  event_type : EventType
  location : String
  date : String
  start_time : Nat
  end_time : Nat
  event_id : Option String := none
  description : Option String := none
deriving DecidableEq, Repr

/-- Conflict kinds, from `src/models/conflict.py` (`ConflictType`). -/
inductive ConflictType where
  | TIME_OVERLAP | LOCATION_CONFLICT | BACK_TO_BACK | DOUBLE_BOOKING
deriving DecidableEq, Repr

/-- A detected conflict, from `src/models/conflict.py` (`Conflict`).  The
formatted `message` string of the source is presentation-only and omitted. -/
structure Conflict where
  conflict_type : ConflictType
  event_a : ScheduleItem
  event_b : ScheduleItem
  severity : String
deriving DecidableEq, Repr

/-- Pairwise conflict classification,
`ConflictEvaluationAgent._check_pair_conflict`.  The source parses
`"{date} {time}"` into datetimes; both call sites only reach it for pairs
sharing a date, where datetime comparison reduces to comparison of the
times of day. -/
def check_pair_conflict (event_a event_b : ScheduleItem) : Option Conflict :=
  if event_a.start_time = event_b.start_time ∧ event_a.end_time = event_b.end_time then
    some ⟨ConflictType.DOUBLE_BOOKING, event_a, event_b, "high"⟩
  else if event_a.start_time < event_b.end_time ∧ event_b.start_time < event_a.end_time then
    some ⟨ConflictType.TIME_OVERLAP, event_a, event_b, "high"⟩
  else if event_a.end_time = event_b.start_time ∧ event_a.location ≠ "" ∧
      event_b.location ≠ "" ∧ pyLower event_a.location ≠ pyLower event_b.location then
    some ⟨ConflictType.BACK_TO_BACK, event_a, event_b, "medium"⟩
  else
    none

/-- Lexicographic order on character lists: Python's string `<`, by code
points. -/
def charListLT : List Char → List Char → Bool
  | [], [] => false
  | [], _ :: _ => true
  | _ :: _, [] => false
  | a :: as, b :: bs => if a < b then true else if b < a then false else charListLT as bs

/-- Python's string `<` (lexicographic by code points), on the underlying
character lists. -/
def strLT (s t : String) : Prop := charListLT s.data t.data = true

instance : DecidableRel strLT := fun s t => by
  unfold strLT; infer_instance

/-- Iteration order of `check_conflicts`: the source sorts by the tuple
`(date, start_time)` before the quadratic pair scan. -/
def dateStartLE (x y : ScheduleItem) : Prop :=
  strLT x.date y.date ∨ (x.date = y.date ∧ x.start_time ≤ y.start_time)

instance : DecidableRel dateStartLE := fun x y => by
  unfold dateStartLE; infer_instance

/-- The double loop `for i ... for j in range(i+1, ...)` of
`ConflictEvaluationAgent.check_conflicts`, including its same-date guard
(`if event_a.date != event_b.date: continue`). -/
def pairConflicts : List ScheduleItem → List Conflict
  | [] => []
  | a :: rest =>
      rest.filterMap (fun b => if a.date = b.date then check_pair_conflict a b else none)
        ++ pairConflicts rest

/-- `ConflictEvaluationAgent.check_conflicts`.  The first argument is the
agent's stored `self.existing_events`; the second is the optional `schedule`
parameter (`none` = absent).  `events = schedule or self.existing_events`
falls back to the stored events when the argument is absent or an empty
list; the source's early return for an empty `events` is subsumed by the
pair scan of an empty list. -/
def check_conflicts (existing_events : List ScheduleItem)
    (schedule : Option (List ScheduleItem)) : List Conflict :=
  let events := match schedule with
    | none => existing_events
    | some l => if l.isEmpty then existing_events else l
  pairConflicts (List.insertionSort dateStartLE events)

/-- `ConflictEvaluationAgent.check_new_event_conflicts`.  The first argument
is the agent's stored `self.existing_events`; the `existing_schedule`
parameter falls back to it when absent or empty
(`schedule = existing_schedule or self.existing_events`). -/
def check_new_event_conflicts (existing_events : List ScheduleItem)
    (new_event : ScheduleItem) (existing_schedule : Option (List ScheduleItem)) :
    List Conflict :=
  let schedule := match existing_schedule with
    | none => existing_events
    | some l => if l.isEmpty then existing_events else l
  schedule.filterMap (fun existing =>
    if existing.date = new_event.date then check_pair_conflict new_event existing else none)

/-- Sort key of `find_free_slots` (`day_events.sort(key=lambda x: x.start_time)`). -/
def startLE (x y : ScheduleItem) : Prop := x.start_time ≤ y.start_time

instance : DecidableRel startLE := fun x y => by
  unfold startLE; infer_instance

/-- The cursor walk of `ConflictEvaluationAgent.find_free_slots` over the
day's events (already filtered and sorted), plus the final gap to the day
window end at 20:00 (= minute 1200). -/
def free_slots_go (duration_minutes : Int) (cur : Nat) :
    List ScheduleItem → List (Nat × Nat)
  | [] => if (1200 : Int) - cur ≥ duration_minutes then [(cur, 1200)] else []
  | e :: rest =>
      (if (e.start_time : Int) - cur ≥ duration_minutes then [(cur, e.start_time)] else [])
        ++ free_slots_go duration_minutes (max cur e.end_time) rest

/-- `ConflictEvaluationAgent.find_free_slots`: restrict to the date, sort by
start time, walk a cursor from the 08:00 window start (= minute 480).  The
gap test `(event_start - current_time) >= duration_minutes` is exact minute
arithmetic in the source (whole-minute times), embedded over `Int`. -/
def find_free_slots (schedule : List ScheduleItem) (date : String)
    (duration_minutes : Int) : List (Nat × Nat) :=
  free_slots_go duration_minutes 480
    (List.insertionSort startLE (schedule.filter (fun e => e.date = date)))

/-- Change kinds, from `src/models/change_request.py` (`ChangeType`). -/
inductive ChangeType where
  | RESCHEDULE | CANCEL | MODIFY | ADD
deriving DecidableEq, Repr

/-- The sparse `new_details` dict of a change request.  An absent key is
`none`.  Where the source tests a string value for truthiness
(`nd.get("date") or ...`, `if nd.get("location"):`), an empty string behaves
like an absent key; that test is kept at each use site.  The times are
pre-parsed to minutes (`none` = key absent or empty).
`clarification_needed` models presence of the `"clarification_needed"` key. -/
structure NewDetails where
  new_event : Option ScheduleItem := none
  date : Option String := none
  start_time : Option Nat := none
  end_time : Option Nat := none
  location : Option String := none
  course : Option String := none
  clarification_needed : Bool := false
deriving DecidableEq, Repr

/-- A change request, from `src/models/change_request.py` (`ChangeRequest`).
`original_event` holds the value of the resolved target object (`none` when
resolution failed); the audit-only `user_message` and `requires_confirmation`
fields are not consulted by `execute_change` and are omitted. -/
structure ChangeRequest where
  change_type : ChangeType
  original_event : Option ScheduleItem
  new_details : NewDetails
deriving DecidableEq, Repr

/-- The result dict of `ChangeManagementAgent.execute_change`
(`success` / `conflicts` / `skipped`); the `message` entry is
presentation-only and omitted. -/
structure ExecResult where
  success : Bool
  conflicts : List Conflict
  skipped : Bool
deriving DecidableEq, Repr

/-- The exact local duplicate scan for ADD (same title case-insensitively,
same date, same start), used both as the pre-check at the top of
`execute_change` and as the `already_exists` re-check inside the ADD branch. -/
def is_local_duplicate (schedule : List ScheduleItem) (new_event : ScheduleItem) : Bool :=
  schedule.any (fun existing =>
    pyLower existing.course == pyLower new_event.course &&
    existing.date == new_event.date &&
    existing.start_time == new_event.start_time)

/-- The duplicate pre-check at the top of `execute_change`: it fires only for
ADD requests carrying a `new_event`. -/
def add_duplicate_precheck (schedule : List ScheduleItem) (cr : ChangeRequest) : Bool :=
  cr.change_type == ChangeType.ADD &&
    (match cr.new_details.new_event with
     | some ne => is_local_duplicate schedule ne
     | none => false)

/-- The updated event a RESCHEDULE produces from its target.  The same
formula appears twice in `execute_change`: once to build the hypothetical
event handed to the conflict check, and once when the target is mutated in
place.  If only a new start is given, the end is start plus the original
duration; the source computes that end with `datetime` arithmetic and
re-renders it with `strftime("%H:%M")`, which reduces it modulo one day
(1440 minutes).  If only a new end is given, the start is kept. -/
def rescheduled_item (original : ScheduleItem) (nd : NewDetails) : ScheduleItem :=
  let original_duration : Int := (original.end_time : Int) - (original.start_time : Int)
  let date' : String := match nd.date with
    | some d => if d = "" then original.date else d
    | none => original.date
  match nd.start_time with
  | some ns =>
      let end' : Nat := match nd.end_time with
        | some t => t
        | none => ((((ns : Int) + original_duration) % 1440).toNat)
      { original with date := date', start_time := ns, end_time := end' }
  | none =>
      let end' : Nat := match nd.end_time with
        | some t => t
        | none => original.end_time
      { original with date := date', end_time := end' }

/-- The updated event a MODIFY produces from its target: only `location` and
`course` may change, and only when the corresponding key holds a truthy
(non-empty) string. -/
def modified_item (original : ScheduleItem) (nd : NewDetails) : ScheduleItem :=
  let loc := match nd.location with
    | some l => if l = "" then original.location else l
    | none => original.location
  let crs := match nd.course with
    | some c => if c = "" then original.course else c
    | none => original.course
  { original with location := loc, course := crs }

/-- The hypothetical event handed to the conflict check: the `new_event` of
an ADD, the duration-preserving update of a RESCHEDULE target, nothing for
the other kinds (the source only enters the conflict branch for
RESCHEDULE/ADD). -/
def conflict_check_event (cr : ChangeRequest) : Option ScheduleItem :=
  match cr.change_type with
  | ChangeType.ADD => cr.new_details.new_event
  | ChangeType.RESCHEDULE => cr.original_event.map (fun o => rescheduled_item o cr.new_details)
  | _ => none

/-- The conflicts computed by the conflict branch of `execute_change`.
`conflict_agent_events` is `none` when no conflict agent is wired, and
otherwise carries the agent's stored `existing_events` (which
`check_new_event_conflicts` falls back to when the schedule it is handed is
empty).  `check_schedule` filters out every event equal to the request's
target (`[e for e in self.current_schedule if e != change_request.original_event]`;
with no target the comparison with `None` keeps everything).  The
Google-Calendar fallback for an empty local schedule is a Calendar Store
branch and is absent in local-only mode. -/
def conflicts_for (conflict_agent_events : Option (List ScheduleItem))
    (current_schedule : List ScheduleItem) (cr : ChangeRequest) : List Conflict :=
  if cr.change_type = ChangeType.RESCHEDULE ∨ cr.change_type = ChangeType.ADD then
    match conflict_agent_events with
    | none => []
    | some ag_events =>
        match conflict_check_event cr with
        | none => []
        | some new_event =>
            let check_schedule := match cr.original_event with
              | some o => current_schedule.filter (fun e => e ≠ o)
              | none => current_schedule
            check_new_event_conflicts ag_events new_event (some check_schedule)
  else []

/-- The conflict-confirmation prompt.  An explicit answer other than
`y`/`yes` (after `strip().lower()`) declines; the `EOFError` branch
(`answer = none`, non-interactive mode) proceeds with the change. -/
def confirmation_declined (answer : Option String) : Bool :=
  match answer with
  | some s => !(pyLower (pyStrip s) == "y" || pyLower (pyStrip s) == "yes")
  | none => false

/-- The per-kind execution stage of `execute_change` (everything after the
duplicate pre-check and the conflict confirmation), threading the conflicts
already recorded in the result.  In local-only mode:

* CANCEL removes the first occurrence equal to the target from the schedule
  (`list.remove` is value-based) and reports success whether or not the
  target was present; an unresolved target fails.
* RESCHEDULE mutates the target in place (embedded as replacing the first
  occurrence equal to it) with the duration-preserving update and succeeds.
* ADD fails on a pending clarification, skips when the duplicate re-check
  fires, otherwise appends the new event and succeeds.
* MODIFY fails on a pending clarification, otherwise applies the
  title/location update in place and succeeds. -/
def replace_first (schedule : List ScheduleItem) (original upd : ScheduleItem) :
    List ScheduleItem :=
  match schedule with
  | [] => []
  | x :: xs => if x = original then upd :: xs else x :: replace_first xs original upd

def apply_change (conflicts : List Conflict) (current_schedule : List ScheduleItem)
    (cr : ChangeRequest) : ExecResult × List ScheduleItem :=
  let nd := cr.new_details
  match cr.change_type with
  | ChangeType.CANCEL =>
      match cr.original_event with
      | some original =>
          (⟨true, conflicts, false⟩, current_schedule.erase original)
      | none => (⟨false, conflicts, false⟩, current_schedule)
  | ChangeType.RESCHEDULE =>
      match cr.original_event with
      | some original =>
          (⟨true, conflicts, false⟩,
           replace_first current_schedule original (rescheduled_item original nd))
      | none => (⟨false, conflicts, false⟩, current_schedule)
  | ChangeType.ADD =>
      if nd.clarification_needed then (⟨false, conflicts, false⟩, current_schedule)
      else
        match nd.new_event with
        | some new_event =>
            if is_local_duplicate current_schedule new_event then
              (⟨false, conflicts, true⟩, current_schedule)
            else
              (⟨true, conflicts, false⟩, current_schedule ++ [new_event])
        | none => (⟨false, conflicts, false⟩, current_schedule)
  | ChangeType.MODIFY =>
      if nd.clarification_needed then (⟨false, conflicts, false⟩, current_schedule)
      else
        match cr.original_event with
        | some original =>
            (⟨true, conflicts, false⟩,
             replace_first current_schedule original (modified_item original nd))
        | none => (⟨false, conflicts, false⟩, current_schedule)

/-- `ChangeManagementAgent.execute_change` in local-only mode, returning the
result together with the updated `current_schedule`.  Stages, in source
order: the ADD duplicate pre-check, the conflict check plus confirmation
for RESCHEDULE/ADD (declining returns an unapplied result with
`skipped = true` and the conflicts attached), then the per-kind execution. -/
def execute_change (conflict_agent_events : Option (List ScheduleItem))
    (current_schedule : List ScheduleItem) (change_request : ChangeRequest)
    (auto_confirm : Bool) (answer : Option String) : ExecResult × List ScheduleItem :=
  if add_duplicate_precheck current_schedule change_request then
    (⟨false, [], true⟩, current_schedule)
  else
    let conflicts := conflicts_for conflict_agent_events current_schedule change_request
    if !conflicts.isEmpty && !auto_confirm && confirmation_declined answer then
      (⟨false, conflicts, true⟩, current_schedule)
    else
      apply_change conflicts current_schedule change_request

/-- `CollaborationAgent._get_duration`: event duration in whole minutes.  The
`except` branch (unparsable time strings, default 60) has no counterpart on
well-formed events. -/
def get_duration (event : ScheduleItem) : Int :=
  (event.end_time : Int) - (event.start_time : Int)

/-- `CollaborationAgent._add_minutes`: `datetime` addition re-rendered with
`strftime("%H:%M")`, i.e. addition modulo one day. -/
def add_minutes (time : Nat) (minutes : Int) : Nat :=
  (((time : Int) + minutes) % 1440).toNat

/-- The morning preference of `find_best_slot`: `9 <= hour <= 11`, where
`hour = int(start.split(":")[0])`, i.e. `start / 60` on canonical times. -/
def morning_slot (s : Nat × Nat) : Bool := 9 ≤ s.1 / 60 && s.1 / 60 ≤ 11

/-- The afternoon preference of `find_best_slot`: `13 <= hour <= 16`. -/
def afternoon_slot (s : Nat × Nat) : Bool := 13 ≤ s.1 / 60 && s.1 / 60 ≤ 16

/-- `CollaborationAgent.find_best_slot`: with no conflict agent wired the
result is `none`; otherwise take the free slots for the date and prefer the
first one starting in hours 9-11, then the first starting in hours 13-16,
then the first slot overall.  The returned interval is the slot start plus
the requested duration. -/
def find_best_slot (has_conflict_agent : Bool) (schedule : List ScheduleItem)
    (date : String) (duration_minutes : Int) : Option (Nat × Nat) :=
  if !has_conflict_agent then none
  else
    let free_slots := find_free_slots schedule date duration_minutes
    if free_slots.isEmpty then none
    else
      match free_slots.find? morning_slot with
      | some s => some (s.1, add_minutes s.1 duration_minutes)
      | none =>
          match free_slots.find? afternoon_slot with
          | some s => some (s.1, add_minutes s.1 duration_minutes)
          | none =>
              match free_slots with
              | [] => none
              | s :: _ => some (s.1, add_minutes s.1 duration_minutes)

/-- Sort order of `batch_reschedule`
(`sorted(events, key=..., reverse=True)`): descending duration, ties in
original order (Python's sort is stable, also under `reverse=True`). -/
def durationDescLE (a b : ScheduleItem) : Prop := get_duration b ≤ get_duration a

instance : DecidableRel durationDescLE := fun a b => by
  unfold durationDescLE; infer_instance

/-- Accumulated state of a `batch_reschedule` run: the two counters of the
results dict and the shared schedule list (in the wired system,
`main.py` hands the same list to the collaboration agent, the change agent
and the conflict agent, and events are mutated in place, so one list
captures all views). -/
structure BatchState where
  rescheduled : Nat
  failed : Nat
  schedule : List ScheduleItem
deriving DecidableEq, Repr

/-- One iteration of the `batch_reschedule` loop.  A found slot becomes a
RESCHEDULE request executed through the change agent (with
`auto_confirm = False`); on success the event's date and times were already
set to exactly the slot by the executor, so the extra in-place update of the
source is a no-op here.  With no change agent wired the source does nothing
for a found slot (neither counter moves); with no slot the event is recorded
as failed and nothing is mutated. -/
def batch_step (conflict_agent_events : Option (List ScheduleItem))
    (has_change_agent has_conflict_agent : Bool) (answer : Option String)
    (target_date : String) (st : BatchState) (event : ScheduleItem) : BatchState :=
  let duration := get_duration event
  match find_best_slot has_conflict_agent st.schedule target_date duration with
  | some slot =>
      if has_change_agent then
        let cr : ChangeRequest :=
          { change_type := ChangeType.RESCHEDULE,
            original_event := some event,
            new_details := { date := some target_date, start_time := some slot.1,
                             end_time := some slot.2 } }
        let res := execute_change conflict_agent_events st.schedule cr false answer
        if res.1.success then
          ⟨st.rescheduled + 1, st.failed, res.2⟩
        else
          ⟨st.rescheduled, st.failed + 1, res.2⟩
      else st
  | none => ⟨st.rescheduled, st.failed + 1, st.schedule⟩

/-- `CollaborationAgent.batch_reschedule`: sort the events by descending
duration (stable), then run the loop over the shared schedule state. -/
def batch_reschedule (conflict_agent_events : Option (List ScheduleItem))
    (has_change_agent has_conflict_agent : Bool) (answer : Option String)
    (events : List ScheduleItem) (target_date : String)
    (schedule : List ScheduleItem) : BatchState :=
  (List.insertionSort durationDescLE events).foldl
    (batch_step conflict_agent_events has_change_agent has_conflict_agent answer target_date)
    ⟨0, 0, schedule⟩

/-- Does conflict `c` concern exactly the unordered pair of events `{x, y}`?
Used to count the conflicts a detector run reports for one pair. -/
def involves_pair (x y : ScheduleItem) (c : Conflict) : Bool :=
  (c.event_a == x && c.event_b == y) || (c.event_a == y && c.event_b == x)

instance : IsTrans ScheduleItem dateStartLE := by
  constructor
  have htrans : ∀ as bs cs : List Char, charListLT as bs = true →
      charListLT bs cs = true → charListLT as cs = true := by
    intro as
    induction as with
    | nil =>
        intro bs cs h1 h2
        cases bs with
        | nil => simp [charListLT] at h1
        | cons b bs' =>
            cases cs with
            | nil => simp [charListLT] at h2
            | cons c cs' => rfl
    | cons a as' ih =>
        intro bs cs h1 h2
        cases bs with
        | nil => simp [charListLT] at h1
        | cons b bs' =>
            cases cs with
            | nil => simp [charListLT] at h2
            | cons c cs' =>
                simp only [charListLT] at h1 h2 ⊢
                split at h1
                · rename_i hab
                  split at h2
                  · rename_i hbc
                    rw [if_pos (lt_trans hab hbc)]
                  · rename_i hnbc
                    split at h2
                    · simp at h2
                    · rename_i hncb
                      have hbc : b = c := le_antisymm (not_lt.mp hncb) (not_lt.mp hnbc)
                      rw [if_pos (hbc ▸ hab)]
                · split at h1
                  · simp at h1
                  · rename_i hnab hnba
                    have hab : a = b := le_antisymm (not_lt.mp hnba) (not_lt.mp hnab)
                    subst hab
                    split at h2
                    · rename_i hac
                      rw [if_pos hac]
                    · rename_i hnac
                      split at h2
                      · simp at h2
                      · rename_i hnca
                        rw [if_neg hnac, if_neg hnca]
                        exact ih bs' cs' h1 h2
  intro x y z hxy hyz
  rcases hxy with h1 | ⟨e1, s1⟩
  · rcases hyz with h2 | ⟨e2, s2⟩
    · exact Or.inl (htrans _ _ _ h1 h2)
    · exact Or.inl (by rw [strLT, ← e2]; exact h1)
  · rcases hyz with h2 | ⟨e2, s2⟩
    · exact Or.inl (by rw [strLT, e1]; exact h2)
    · exact Or.inr ⟨e1.trans e2, le_trans s1 s2⟩

instance : IsTotal ScheduleItem dateStartLE := by
  constructor
  have htot : ∀ as bs : List Char,
      charListLT as bs = true ∨ as = bs ∨ charListLT bs as = true := by
    intro as
    induction as with
    | nil =>
        intro bs
        cases bs with
        | nil => exact Or.inr (Or.inl rfl)
        | cons b bs' => exact Or.inl rfl
    | cons a as' ih =>
        intro bs
        cases bs with
        | nil => exact Or.inr (Or.inr rfl)
        | cons b bs' =>
            rcases lt_trichotomy a b with h | h | h
            · exact Or.inl (by simp [charListLT, h])
            · subst h
              rcases ih bs' with h' | h' | h'
              · exact Or.inl (by simp [charListLT, lt_irrefl, h'])
              · exact Or.inr (Or.inl (by rw [h']))
              · exact Or.inr (Or.inr (by simp [charListLT, lt_irrefl, h']))
            · exact Or.inr (Or.inr (by simp [charListLT, h]))
  intro x y
  rcases htot x.date.data y.date.data with h | h | h
  · exact Or.inl (Or.inl h)
  · have hd : x.date = y.date := by
      have hs : ∀ s t : String, s.data = t.data → s = t := by
        intro s t hst
        cases s; cases t
        exact congrArg String.mk (by simpa using hst)
      exact hs _ _ h
    rcases Nat.le_total x.start_time y.start_time with hle | hle
    · exact Or.inl (Or.inr ⟨hd, hle⟩)
    · exact Or.inr (Or.inr ⟨hd.symm, hle⟩)
  · exact Or.inr (Or.inl h)

instance : IsTrans ScheduleItem durationDescLE :=
  ⟨fun _ _ _ h1 h2 => le_trans h2 h1⟩

instance : IsTotal ScheduleItem durationDescLE :=
  ⟨fun a b => Int.le_total (get_duration b) (get_duration a)⟩

/-! Helper lemmas. -/

theorem is_local_duplicate_iff (sch : List ScheduleItem) (nev : ScheduleItem) :
    is_local_duplicate sch nev = true ↔
      ∃ ex_, ex_ ∈ sch ∧ pyLower ex_.course = pyLower nev.course ∧
        ex_.date = nev.date ∧ ex_.start_time = nev.start_time := by
  simp [is_local_duplicate, List.any_eq_true, Bool.and_eq_true, beq_iff_eq, and_assoc]

theorem replace_first_append (l1 l2 : List ScheduleItem) (o u : ScheduleItem)
    (h : o ∉ l1) : replace_first (l1 ++ o :: l2) o u = l1 ++ u :: l2 := by
  induction l1 with
  | nil => simp [replace_first]
  | cons x xs ih =>
      have hxo : ¬ x = o := fun hx => h (hx ▸ List.mem_cons_self x xs)
      simp only [List.cons_append, replace_first, if_neg hxo, List.append_eq]
      rw [ih (fun hm => h (List.mem_cons_of_mem x hm))]

/-! Claim theorems. -/

/-- C9: passing an explicitly empty schedule list to `check_conflicts` or
`check_new_event_conflicts` behaves exactly like omitting the argument: the
agent's stored `existing_events` are scanned instead, so conflicts against
the stored events are still reported (the final conjunct exhibits a
non-empty stored list for which both calls made with an empty list still
report conflicts). -/
theorem C9_empty_schedule_falls_back :
    (∀ stored : List ScheduleItem,
        check_conflicts stored (some []) = check_conflicts stored none) ∧
    (∀ (stored : List ScheduleItem) (cand : ScheduleItem),
        check_new_event_conflicts stored cand (some []) =
          check_new_event_conflicts stored cand none) ∧
    (∃ (stored : List ScheduleItem) (cand : ScheduleItem),
        stored ≠ [] ∧
        check_new_event_conflicts stored cand (some []) ≠ [] ∧
        check_conflicts stored (some []) ≠ []) :=
  ⟨fun _ => rfl, fun _ _ => rfl,
    ⟨[⟨"A", EventType.LECTURE, "R1", "2025-12-15", 600, 720, none, none⟩,
      ⟨"B", EventType.LECTURE, "R2", "2025-12-15", 600, 720, none, none⟩],
     ⟨"C", EventType.OTHER, "", "2025-12-15", 660, 780, none, none⟩,
     by decide, by decide, by decide⟩⟩

/-- C10: a CANCEL whose target is resolved and carries no Calendar Store
binding reports success unconditionally; the schedule only changes when the
target is actually present (removal of the first occurrence equal to it),
and when the target is absent the schedule is returned untouched while the
result still reports success. -/
theorem C10_cancel_reports_success (ag : Option (List ScheduleItem))
    (sch : List ScheduleItem) (orig : ScheduleItem) (nd : NewDetails)
    (auto_confirm : Bool) (answer : Option String)
    (hid : orig.event_id = none) :
    execute_change ag sch ⟨ChangeType.CANCEL, some orig, nd⟩ auto_confirm answer =
      (⟨true, [], false⟩, sch.erase orig) ∧
    (orig ∉ sch → sch.erase orig = sch) :=
  ⟨rfl, fun h => List.erase_of_not_mem h⟩

/-- C10 witness: cancelling a resolved target that is not in the schedule
still reports success and leaves the schedule unchanged. -/
theorem C10_cancel_witness :
    execute_change none
        [⟨"Kept", EventType.LECTURE, "R", "2025-12-15", 600, 720, none, none⟩]
        ⟨ChangeType.CANCEL,
         some ⟨"Gone", EventType.LAB, "R", "2025-12-16", 600, 720, none, none⟩, {}⟩
        false none =
      (⟨true, [], false⟩,
       [⟨"Kept", EventType.LECTURE, "R", "2025-12-15", 600, 720, none, none⟩]) := by
  have h := C10_cancel_reports_success none
    [⟨"Kept", EventType.LECTURE, "R", "2025-12-15", 600, 720, none, none⟩]
    ⟨"Gone", EventType.LAB, "R", "2025-12-16", 600, 720, none, none⟩ {} false none rfl
  rw [h.1, h.2 (by decide)]

/-- C8: a MODIFY on a resolved target (with no pending clarification) changes
only the title and location of the target: its date, start, end, category,
store binding and description are untouched, the rest of the schedule is
untouched (the target's occurrence is replaced in place), no conflicts are
attached, and the outcome is completely independent of the conflict agent
and of the confirmation machinery — no conflict check runs for MODIFY. -/
theorem C8_modify_frame (ag : Option (List ScheduleItem)) (sch : List ScheduleItem)
    (orig : ScheduleItem) (nd : NewDetails) (auto_confirm : Bool)
    (answer : Option String) (hcl : nd.clarification_needed = false) :
    execute_change ag sch ⟨ChangeType.MODIFY, some orig, nd⟩ auto_confirm answer =
      (⟨true, [], false⟩, replace_first sch orig (modified_item orig nd)) ∧
    (modified_item orig nd).date = orig.date ∧
    (modified_item orig nd).start_time = orig.start_time ∧
    (modified_item orig nd).end_time = orig.end_time ∧
    (modified_item orig nd).event_type = orig.event_type ∧
    (modified_item orig nd).event_id = orig.event_id ∧
    (modified_item orig nd).description = orig.description ∧
    (∀ l1 l2, sch = l1 ++ orig :: l2 → orig ∉ l1 →
        replace_first sch orig (modified_item orig nd) =
          l1 ++ modified_item orig nd :: l2) ∧
    execute_change ag sch ⟨ChangeType.MODIFY, some orig, nd⟩ auto_confirm answer =
      execute_change none sch ⟨ChangeType.MODIFY, some orig, nd⟩ true none := by
  have hmain : ∀ (ag' : Option (List ScheduleItem)) (auto' : Bool)
      (ans' : Option String),
      execute_change ag' sch ⟨ChangeType.MODIFY, some orig, nd⟩ auto' ans' =
        (⟨true, [], false⟩, replace_first sch orig (modified_item orig nd)) := by
    intro ag' auto' ans'
    show apply_change [] sch ⟨ChangeType.MODIFY, some orig, nd⟩ = _
    show (if nd.clarification_needed then _ else _) = _
    rw [hcl]
    rfl
  refine ⟨hmain ag auto_confirm answer, rfl, rfl, rfl, rfl, rfl, rfl, ?_, ?_⟩
  · intro l1 l2 hs h1
    rw [hs]
    exact replace_first_append l1 l2 orig _ h1
  · rw [hmain ag auto_confirm answer, hmain none true none]

/-- C8 witness: modifying the location of a one-event schedule's event keeps
its times and date and only rewrites the location. -/
theorem C8_modify_witness :
    execute_change none
        [⟨"Sem", EventType.LECTURE, "R1", "2025-12-15", 600, 720, none, none⟩]
        ⟨ChangeType.MODIFY,
         some ⟨"Sem", EventType.LECTURE, "R1", "2025-12-15", 600, 720, none, none⟩,
         { location := some "R2" }⟩ false none =
      (⟨true, [], false⟩,
       [⟨"Sem", EventType.LECTURE, "R2", "2025-12-15", 600, 720, none, none⟩]) := by
  have h := C8_modify_frame none
    [⟨"Sem", EventType.LECTURE, "R1", "2025-12-15", 600, 720, none, none⟩]
    ⟨"Sem", EventType.LECTURE, "R1", "2025-12-15", 600, 720, none, none⟩
    { location := some "R2" } false none rfl
  rw [h.1]
  decide

/-- C2: an ADD whose new event matches an event already in the schedule on
title (case-insensitively), date and start time is skipped as a duplicate:
`success = false`, `skipped = true`, no conflicts, schedule unchanged.  The
match is exact title equality: when no event matches on all three keys
(in particular when titles are merely substrings of one another) and the
add is otherwise clean, the event is appended and nothing is skipped. -/
theorem C2_add_duplicate (ag : Option (List ScheduleItem)) (sch : List ScheduleItem)
    (oe : Option ScheduleItem) (nd : NewDetails) (nev : ScheduleItem)
    (auto_confirm : Bool) (answer : Option String)
    (hne : nd.new_event = some nev) :
    ((∃ ex_, ex_ ∈ sch ∧ pyLower ex_.course = pyLower nev.course ∧
        ex_.date = nev.date ∧ ex_.start_time = nev.start_time) →
      execute_change ag sch ⟨ChangeType.ADD, oe, nd⟩ auto_confirm answer =
        (⟨false, [], true⟩, sch)) ∧
    (nd.clarification_needed = false →
      ¬ (∃ ex_, ex_ ∈ sch ∧ pyLower ex_.course = pyLower nev.course ∧
          ex_.date = nev.date ∧ ex_.start_time = nev.start_time) →
      conflicts_for ag sch ⟨ChangeType.ADD, oe, nd⟩ = [] →
      execute_change ag sch ⟨ChangeType.ADD, oe, nd⟩ auto_confirm answer =
        (⟨true, [], false⟩, sch ++ [nev])) := by
  constructor
  · intro hdup
    have hd : is_local_duplicate sch nev = true := (is_local_duplicate_iff sch nev).mpr hdup
    have hpre : add_duplicate_precheck sch ⟨ChangeType.ADD, oe, nd⟩ = true := by
      simp [add_duplicate_precheck, hne, hd]
    unfold execute_change
    rw [hpre]
    rfl
  · intro hcl hnd hcf
    have hd : is_local_duplicate sch nev = false := by
      cases h : is_local_duplicate sch nev
      · rfl
      · exact absurd ((is_local_duplicate_iff sch nev).mp h) hnd
    have hpre : add_duplicate_precheck sch ⟨ChangeType.ADD, oe, nd⟩ = false := by
      simp [add_duplicate_precheck, hne, hd]
    unfold execute_change
    rw [hpre]
    simp [hcf, apply_change, hcl, hne, hd]

/-- C2 witness: a same-title (up to case), same-date, same-start event is
skipped even though categories and end times differ; a title that is merely
a substring of an existing title is not treated as a duplicate and the event
is appended. -/
theorem C2_add_duplicate_witness :
    (execute_change none
        [⟨"math 101", EventType.OTHER, "", "2025-12-15", 600, 650, none, none⟩]
        ⟨ChangeType.ADD, none,
         { new_event := some ⟨"Math 101", EventType.MEETING, "L", "2025-12-15", 600, 700,
             none, none⟩ }⟩ false none =
      (⟨false, [], true⟩,
       [⟨"math 101", EventType.OTHER, "", "2025-12-15", 600, 650, none, none⟩])) ∧
    (execute_change none
        [⟨"Math 101 Lecture", EventType.LECTURE, "L", "2025-12-15", 600, 700, none, none⟩]
        ⟨ChangeType.ADD, none,
         { new_event := some ⟨"Math 101", EventType.MEETING, "L", "2025-12-16", 800, 860,
             none, none⟩ }⟩ false none =
      (⟨true, [], false⟩,
       [⟨"Math 101 Lecture", EventType.LECTURE, "L", "2025-12-15", 600, 700, none, none⟩,
        ⟨"Math 101", EventType.MEETING, "L", "2025-12-16", 800, 860, none, none⟩])) :=
  ⟨(C2_add_duplicate none
      [⟨"math 101", EventType.OTHER, "", "2025-12-15", 600, 650, none, none⟩] none
      { new_event := some ⟨"Math 101", EventType.MEETING, "L", "2025-12-15", 600, 700,
          none, none⟩ }
      ⟨"Math 101", EventType.MEETING, "L", "2025-12-15", 600, 700, none, none⟩
      false none rfl).1
      ⟨⟨"math 101", EventType.OTHER, "", "2025-12-15", 600, 650, none, none⟩, by decide⟩,
   (C2_add_duplicate none
      [⟨"Math 101 Lecture", EventType.LECTURE, "L", "2025-12-15", 600, 700, none, none⟩]
      none
      { new_event := some ⟨"Math 101", EventType.MEETING, "L", "2025-12-16", 800, 860,
          none, none⟩ }
      ⟨"Math 101", EventType.MEETING, "L", "2025-12-16", 800, 860, none, none⟩
      false none rfl).2 rfl (by decide) rfl⟩

/-- C6 counterexample: rescheduling a two-hour event (10:00-12:00) to start
at 23:30 with no explicit new end yields end time 01:30 (minute 90): the
source renders `newStart + duration` with `strftime("%H:%M")`, i.e. modulo
one day, so the stored end is not `newStart + duration` (minute 1530) and
the duration, read off the stored times, is not preserved. -/
theorem C6_counterexample :
    (execute_change none
        [⟨"Sem", EventType.LECTURE, "R", "2025-12-15", 600, 720, none, none⟩]
        ⟨ChangeType.RESCHEDULE,
         some ⟨"Sem", EventType.LECTURE, "R", "2025-12-15", 600, 720, none, none⟩,
         { start_time := some 1410 }⟩ true none).2 =
      [⟨"Sem", EventType.LECTURE, "R", "2025-12-15", 1410, 90, none, none⟩] ∧
    (90 : Int) ≠ 1410 + (720 - 600) ∧
    (90 : Int) - 1410 ≠ 720 - 600 := by
  refine ⟨by decide, by decide, by decide⟩

/-- C6 (amended): a RESCHEDULE on a resolved target with only a new start
time produces end = (new start + original duration) modulo one day, which
preserves the duration exactly whenever the sum stays within the day; with
only a new end time the original start is kept; the date is updated from the
request's date field alone, independently of the times; and with
`auto_confirm` the executor applies exactly this updated event in place of
the target. -/
theorem C6_reschedule_duration (orig : ScheduleItem) (nd : NewDetails) :
    (∀ ns, nd.start_time = some ns → nd.end_time = none →
      (rescheduled_item orig nd).start_time = ns ∧
      ((rescheduled_item orig nd).end_time : Int) =
        ((ns : Int) + ((orig.end_time : Int) - (orig.start_time : Int))) % 1440 ∧
      (orig.start_time ≤ orig.end_time →
        (ns : Int) + ((orig.end_time : Int) - (orig.start_time : Int)) < 1440 →
        ((rescheduled_item orig nd).end_time : Int) - (ns : Int) =
          (orig.end_time : Int) - (orig.start_time : Int))) ∧
    (∀ t, nd.start_time = none → nd.end_time = some t →
      (rescheduled_item orig nd).start_time = orig.start_time ∧
      (rescheduled_item orig nd).end_time = t) ∧
    ((rescheduled_item orig nd).date = match nd.date with
      | some d => if d = "" then orig.date else d
      | none => orig.date) ∧
    (∀ (ag : Option (List ScheduleItem)) (sch : List ScheduleItem)
        (answer : Option String),
      execute_change ag sch ⟨ChangeType.RESCHEDULE, some orig, nd⟩ true answer =
        (⟨true, conflicts_for ag sch ⟨ChangeType.RESCHEDULE, some orig, nd⟩, false⟩,
         replace_first sch orig (rescheduled_item orig nd))) := by
  refine ⟨?_, ?_, ?_, ?_⟩
  · intro ns hs he
    have hval : (ns : Int) + ((orig.end_time : Int) - (orig.start_time : Int)) ≥ 0 →
        True := fun _ => trivial
    unfold rescheduled_item
    rw [hs, he]
    refine ⟨rfl, ?_, ?_⟩
    · simp only []
      rw [Int.toNat_of_nonneg (Int.emod_nonneg _ (by decide))]
    · intro hle hlt
      have h0 : 0 ≤ (ns : Int) + ((orig.end_time : Int) - (orig.start_time : Int)) := by
        have : (0 : Int) ≤ (orig.end_time : Int) - (orig.start_time : Int) := by
          omega
        omega
      simp only []
      rw [Int.toNat_of_nonneg (Int.emod_nonneg _ (by decide)),
        Int.emod_eq_of_lt h0 hlt]
      ring
  · intro t hs he
    unfold rescheduled_item
    rw [hs, he]
    exact ⟨rfl, rfl⟩
  · unfold rescheduled_item
    cases nd.start_time <;> rfl
  · intro ag sch answer
    unfold execute_change
    have hpre : add_duplicate_precheck sch ⟨ChangeType.RESCHEDULE, some orig, nd⟩ = false := rfl
    rw [hpre]
    simp only [Bool.not_true, Bool.and_false, Bool.false_and, Bool.and_self]
    rfl

/-- C6 witness: moving a 10:00-12:00 event to start at 14:00 with no
explicit end gives 14:00-16:00 — the two-hour duration is preserved — and
the executor installs exactly that event. -/
theorem C6_reschedule_witness :
    (rescheduled_item ⟨"Sem", EventType.LECTURE, "R", "2025-12-15", 600, 720, none, none⟩
        { start_time := some 840 }).start_time = 840 ∧
    ((rescheduled_item ⟨"Sem", EventType.LECTURE, "R", "2025-12-15", 600, 720, none, none⟩
        { start_time := some 840 }).end_time : Int) - 840 = 120 ∧
    execute_change none
        [⟨"Sem", EventType.LECTURE, "R", "2025-12-15", 600, 720, none, none⟩]
        ⟨ChangeType.RESCHEDULE,
         some ⟨"Sem", EventType.LECTURE, "R", "2025-12-15", 600, 720, none, none⟩,
         { start_time := some 840 }⟩ true none =
      (⟨true, [], false⟩,
       [⟨"Sem", EventType.LECTURE, "R", "2025-12-15", 840, 960, none, none⟩]) := by
  have h := C6_reschedule_duration
    ⟨"Sem", EventType.LECTURE, "R", "2025-12-15", 600, 720, none, none⟩
    { start_time := some 840 }
  refine ⟨(h.1 840 rfl rfl).1, ?_, ?_⟩
  · have h2 := (h.1 840 rfl rfl).2.2 (by decide) (by decide)
    exact h2
  · rw [h.2.2.2 none
      [⟨"Sem", EventType.LECTURE, "R", "2025-12-15", 600, 720, none, none⟩] none]
    decide

/-- C1 counterexample: an ADD with one detected conflict, `autoConfirm`
false, and an explicit declining answer returns `skipped = true` — the
source reuses the duplicate-skip flag on the decline path — whereas the
claim requires `skippedAsDuplicate = false` for a declined conflict
confirmation. -/
theorem C1_counterexample :
    execute_change (some [])
        [⟨"Sem", EventType.LECTURE, "R", "2025-12-15", 600, 720, none, none⟩]
        ⟨ChangeType.ADD, none,
         { new_event := some ⟨"New", EventType.OTHER, "", "2025-12-15", 660, 780,
             none, none⟩ }⟩
        false (some "n") =
      (⟨false,
        [⟨ConflictType.TIME_OVERLAP,
          ⟨"New", EventType.OTHER, "", "2025-12-15", 660, 780, none, none⟩,
          ⟨"Sem", EventType.LECTURE, "R", "2025-12-15", 600, 720, none, none⟩,
          "high"⟩],
        true⟩,
       [⟨"Sem", EventType.LECTURE, "R", "2025-12-15", 600, 720, none, none⟩]) := by
  decide

/-- C1 (amended): when the conflict check finds conflicts, `autoConfirm` is
false, and the answer is an explicit string other than `y`/`yes`, the
operation is declined: unapplied, with the conflicts attached, with
`skipped = true` (the source reuses the duplicate-skip flag), and the
schedule is left unchanged.  An absent answer (EOF, non-interactive mode)
does not decline: execution proceeds to the apply stage. -/
theorem C1_conflict_decline (ag : Option (List ScheduleItem)) (sch : List ScheduleItem)
    (cr : ChangeRequest) (s : String)
    (hpre : add_duplicate_precheck sch cr = false)
    (hconf : conflicts_for ag sch cr ≠ [])
    (hy : pyLower (pyStrip s) ≠ "y") (hyes : pyLower (pyStrip s) ≠ "yes") :
    execute_change ag sch cr false (some s) =
      (⟨false, conflicts_for ag sch cr, true⟩, sch) ∧
    execute_change ag sch cr false none =
      apply_change (conflicts_for ag sch cr) sch cr := by
  have hie : (conflicts_for ag sch cr).isEmpty = false := by
    cases h : (conflicts_for ag sch cr).isEmpty
    · rfl
    · exact absurd (List.isEmpty_iff.mp h) hconf
  have hdecl : confirmation_declined (some s) = true := by
    simp [confirmation_declined, beq_eq_false_iff_ne, hy, hyes]
  constructor
  · unfold execute_change
    rw [hpre]
    simp only [if_false, Bool.false_eq_true, hie, hdecl, Bool.not_false, Bool.and_true,
      Bool.and_self, if_true]
  · unfold execute_change
    rw [hpre]
    simp only [if_false, Bool.false_eq_true, confirmation_declined, Bool.and_false]

/-- C1 witness: the decline branch at a concrete conflicting ADD with the
answer string `no`, and the proceed-on-EOF branch at the same input. -/
theorem C1_conflict_decline_witness :
    execute_change (some [])
        [⟨"Lab", EventType.LAB, "R", "2025-12-15", 600, 720, none, none⟩]
        ⟨ChangeType.ADD, none,
         { new_event := some ⟨"Talk", EventType.OTHER, "", "2025-12-15", 600, 720,
             none, none⟩ }⟩
        false (some "no") =
      (⟨false,
        conflicts_for (some [])
          [⟨"Lab", EventType.LAB, "R", "2025-12-15", 600, 720, none, none⟩]
          ⟨ChangeType.ADD, none,
           { new_event := some ⟨"Talk", EventType.OTHER, "", "2025-12-15", 600, 720,
               none, none⟩ }⟩,
        true⟩,
       [⟨"Lab", EventType.LAB, "R", "2025-12-15", 600, 720, none, none⟩]) ∧
    execute_change (some [])
        [⟨"Lab", EventType.LAB, "R", "2025-12-15", 600, 720, none, none⟩]
        ⟨ChangeType.ADD, none,
         { new_event := some ⟨"Talk", EventType.OTHER, "", "2025-12-15", 600, 720,
             none, none⟩ }⟩
        false none =
      apply_change
        (conflicts_for (some [])
          [⟨"Lab", EventType.LAB, "R", "2025-12-15", 600, 720, none, none⟩]
          ⟨ChangeType.ADD, none,
           { new_event := some ⟨"Talk", EventType.OTHER, "", "2025-12-15", 600, 720,
               none, none⟩ }⟩)
        [⟨"Lab", EventType.LAB, "R", "2025-12-15", 600, 720, none, none⟩]
        ⟨ChangeType.ADD, none,
         { new_event := some ⟨"Talk", EventType.OTHER, "", "2025-12-15", 600, 720,
             none, none⟩ }⟩ :=
  C1_conflict_decline (some [])
    [⟨"Lab", EventType.LAB, "R", "2025-12-15", 600, 720, none, none⟩]
    ⟨ChangeType.ADD, none,
     { new_event := some ⟨"Talk", EventType.OTHER, "", "2025-12-15", 600, 720,
         none, none⟩ }⟩
    "no" rfl (by decide) (by decide) (by decide)

theorem free_slots_go_sound (dur : Int) :
    ∀ (l : List ScheduleItem) (cur : Nat), ∀ s ∈ free_slots_go dur cur l,
      cur ≤ s.1 ∧ (s.2 : Int) - (s.1 : Int) ≥ dur := by
  intro l
  induction l with
  | nil =>
      intro cur s hs
      simp only [free_slots_go] at hs
      split at hs
      · rcases List.mem_singleton.mp hs with rfl
        exact ⟨le_refl _, by assumption⟩
      · cases hs
  | cons e rest ih =>
      intro cur s hs
      simp only [free_slots_go, List.mem_append] at hs
      rcases hs with hs | hs
      · split at hs
        · rcases List.mem_singleton.mp hs with rfl
          exact ⟨le_refl _, by assumption⟩
        · cases hs
      · have h := ih (max cur e.end_time) s hs
        exact ⟨le_trans (le_max_left _ _) h.1, h.2⟩

theorem free_slots_go_upper (dur : Int) :
    ∀ (l : List ScheduleItem) (cur : Nat), (∀ e ∈ l, e.start_time ≤ 1200) →
      ∀ s ∈ free_slots_go dur cur l, s.2 ≤ 1200 := by
  intro l
  induction l with
  | nil =>
      intro cur _ s hs
      simp only [free_slots_go] at hs
      split at hs
      · rcases List.mem_singleton.mp hs with rfl
        exact le_refl _
      · cases hs
  | cons e rest ih =>
      intro cur hb s hs
      simp only [free_slots_go, List.mem_append] at hs
      rcases hs with hs | hs
      · split at hs
        · rcases List.mem_singleton.mp hs with rfl
          exact hb e (List.mem_cons_self e rest)
        · cases hs
      · exact ih (max cur e.end_time) (fun x hx => hb x (List.mem_cons_of_mem e hx)) s hs

theorem free_slots_go_chain (dur : Int) :
    ∀ (l : List ScheduleItem) (cur : Nat), (∀ e ∈ l, e.start_time ≤ e.end_time) →
      List.Chain' (fun s t : Nat × Nat => s.2 ≤ t.1) (free_slots_go dur cur l) := by
  intro l
  induction l with
  | nil =>
      intro cur _
      simp only [free_slots_go]
      split
      · exact List.chain'_singleton _
      · exact List.chain'_nil
  | cons e rest ih =>
      intro cur hv
      have hrest : ∀ x ∈ rest, x.start_time ≤ x.end_time :=
        fun x hx => hv x (List.mem_cons_of_mem e hx)
      simp only [free_slots_go]
      split
      · rw [List.singleton_append, List.chain'_cons']
        refine ⟨?_, ih (max cur e.end_time) hrest⟩
        intro b hb
        have hmem := List.mem_of_mem_head? hb
        have h1 := (free_slots_go_sound dur rest (max cur e.end_time) b hmem).1
        have h2 : e.end_time ≤ max cur e.end_time := le_max_right _ _
        exact le_trans (hv e (List.mem_cons_self e rest)) (le_trans h2 h1)
      · rw [List.nil_append]
        exact ih (max cur e.end_time) hrest

/-- C5 counterexample: an event on the requested date starting after the
20:00 window end makes `find_free_slots` emit a slot ending at 20:30
(minute 1230), outside the 08:00-20:00 window the claim confines all slots
to. -/
theorem C5_counterexample :
    find_free_slots
        [⟨"Late", EventType.OTHER, "R", "2025-12-15", 1230, 1260, none, none⟩]
        "2025-12-15" 60 = [(480, 1230)] ∧ 1200 < 1230 :=
  ⟨by decide, by decide⟩

/-- C5 (amended): every returned slot is at least the requested duration
long (a gap of exactly the minimum is kept, one minute shorter is dropped —
the two concrete conjuncts exhibit the 59/60-minute boundary), slots start
at or after 08:00 and appear in chronological order, the result is confined
to the 08:00-20:00 window provided no event on the date starts after 20:00
(an event starting later stretches the preceding slot past the window end,
see the counterexample), and a date with no events yields exactly the
single whole-window slot whenever the window meets the minimum duration. -/
theorem C5_free_slots :
    (∀ (schedule : List ScheduleItem) (date : String) (dur : Int),
      ∀ s ∈ find_free_slots schedule date dur,
        480 ≤ s.1 ∧ (s.2 : Int) - (s.1 : Int) ≥ dur) ∧
    (∀ (schedule : List ScheduleItem) (date : String) (dur : Int),
      (∀ e ∈ schedule, e.start_time ≤ e.end_time) →
      List.Chain' (fun s t : Nat × Nat => s.2 ≤ t.1)
        (find_free_slots schedule date dur)) ∧
    (∀ (schedule : List ScheduleItem) (date : String) (dur : Int),
      (∀ e ∈ schedule, e.date = date → e.start_time ≤ 1200) →
      ∀ s ∈ find_free_slots schedule date dur, s.2 ≤ 1200) ∧
    (∀ (schedule : List ScheduleItem) (date : String) (dur : Int),
      schedule.filter (fun e => e.date = date) = [] → dur ≤ 720 →
      find_free_slots schedule date dur = [(480, 1200)]) ∧
    find_free_slots [⟨"A", EventType.LECTURE, "R", "2025-12-15", 539, 600, none, none⟩]
        "2025-12-15" 60 = [(600, 1200)] ∧
    find_free_slots [⟨"A", EventType.LECTURE, "R", "2025-12-15", 540, 600, none, none⟩]
        "2025-12-15" 60 = [(480, 540), (600, 1200)] := by
  refine ⟨?_, ?_, ?_, ?_, by decide, by decide⟩
  · intro schedule date dur s hs
    exact free_slots_go_sound dur _ 480 s hs
  · intro schedule date dur hv
    refine free_slots_go_chain dur _ 480 ?_
    intro e he
    have hm := (List.perm_insertionSort startLE
      (schedule.filter (fun e => e.date = date))).mem_iff.mp he
    exact hv e (List.mem_of_mem_filter hm)
  · intro schedule date dur hb s hs
    refine free_slots_go_upper dur _ 480 ?_ s hs
    intro e he
    have hm := (List.perm_insertionSort startLE
      (schedule.filter (fun e => e.date = date))).mem_iff.mp he
    have hd : e.date = date := by
      have := List.of_mem_filter hm
      exact of_decide_eq_true this
    exact hb e (List.mem_of_mem_filter hm) hd
  · intro schedule date dur hf hdur
    unfold find_free_slots
    rw [hf]
    show free_slots_go dur 480 [] = _
    simp only [free_slots_go]
    rw [if_pos (by omega)]

/-- C5 witness: the general conjuncts instantiated at a concrete one-event
schedule: every slot is at least 60 minutes, starts at or after 08:00, the
slots are chronological and confined to the window, and an event-free date
yields the whole window. -/
theorem C5_free_slots_witness :
    (∀ s ∈ find_free_slots
        [⟨"B", EventType.LAB, "R", "2025-12-15", 600, 660, none, none⟩]
        "2025-12-15" 60, 480 ≤ s.1 ∧ (s.2 : Int) - (s.1 : Int) ≥ 60) ∧
    List.Chain' (fun s t : Nat × Nat => s.2 ≤ t.1)
      (find_free_slots [⟨"B", EventType.LAB, "R", "2025-12-15", 600, 660, none, none⟩]
        "2025-12-15" 60) ∧
    (∀ s ∈ find_free_slots
        [⟨"B", EventType.LAB, "R", "2025-12-15", 600, 660, none, none⟩]
        "2025-12-15" 60, s.2 ≤ 1200) ∧
    find_free_slots [⟨"B", EventType.LAB, "R", "2025-12-15", 600, 660, none, none⟩]
      "2025-12-16" 60 = [(480, 1200)] :=
  ⟨fun s hs => C5_free_slots.1 _ "2025-12-15" 60 s hs,
   C5_free_slots.2.1 _ "2025-12-15" 60 (by decide),
   fun s hs => C5_free_slots.2.2.1 _ "2025-12-15" 60 (by decide) s hs,
   C5_free_slots.2.2.2.1 _ "2025-12-16" 60 (by decide) (by decide)⟩

theorem check_pair_conflict_fields {x y : ScheduleItem} {c : Conflict}
    (h : check_pair_conflict x y = some c) : c.event_a = x ∧ c.event_b = y := by
  unfold check_pair_conflict at h
  split at h
  · simp only [Option.some.injEq] at h
    subst h
    exact ⟨rfl, rfl⟩
  · split at h
    · simp only [Option.some.injEq] at h
      subst h
      exact ⟨rfl, rfl⟩
    · split at h
      · simp only [Option.some.injEq] at h
        subst h
        exact ⟨rfl, rfl⟩
      · exact Option.noConfusion h

theorem check_pair_conflict_priority (x y : ScheduleItem) (c : Conflict)
    (h : check_pair_conflict x y = some c) :
    (x.start_time = y.start_time ∧ x.end_time = y.end_time →
      c.conflict_type = ConflictType.DOUBLE_BOOKING ∧ c.severity = "high") ∧
    (¬(x.start_time = y.start_time ∧ x.end_time = y.end_time) →
      x.start_time < y.end_time ∧ y.start_time < x.end_time →
      c.conflict_type = ConflictType.TIME_OVERLAP ∧ c.severity = "high") ∧
    (¬(x.start_time = y.start_time ∧ x.end_time = y.end_time) →
      ¬(x.start_time < y.end_time ∧ y.start_time < x.end_time) →
      c.conflict_type = ConflictType.BACK_TO_BACK ∧ c.severity = "medium") := by
  unfold check_pair_conflict at h
  split at h
  · rename_i hdb
    simp only [Option.some.injEq] at h
    subst h
    exact ⟨fun _ => ⟨rfl, rfl⟩, fun hn _ => absurd hdb hn, fun hn _ => absurd hdb hn⟩
  · rename_i hndb
    split at h
    · rename_i hov
      simp only [Option.some.injEq] at h
      subst h
      exact ⟨fun hdb => absurd hdb hndb, fun _ _ => ⟨rfl, rfl⟩,
        fun _ hno => absurd hov hno⟩
    · rename_i hnov
      split at h
      · simp only [Option.some.injEq] at h
        subst h
        exact ⟨fun hdb => absurd hdb hndb, fun _ hov => absurd hov hnov,
          fun _ _ => ⟨rfl, rfl⟩⟩
      · exact Option.noConfusion h

theorem check_pair_conflict_identical {x y : ScheduleItem}
    (hs : x.start_time = y.start_time) (he : x.end_time = y.end_time) :
    check_pair_conflict x y = some ⟨ConflictType.DOUBLE_BOOKING, x, y, "high"⟩ := by
  unfold check_pair_conflict
  rw [if_pos ⟨hs, he⟩]

theorem check_pair_conflict_btb {x y : ScheduleItem}
    (hvx : x.start_time < x.end_time) (hadj : x.end_time = y.start_time)
    (hx : x.location ≠ "") (hy : y.location ≠ "")
    (hl : pyLower x.location ≠ pyLower y.location) :
    check_pair_conflict x y = some ⟨ConflictType.BACK_TO_BACK, x, y, "medium"⟩ := by
  unfold check_pair_conflict
  rw [if_neg (by omega), if_neg (by omega), if_pos ⟨hadj, hx, hy, hl⟩]

theorem check_pair_conflict_reverse_none {x y : ScheduleItem}
    (hvx : x.start_time < x.end_time) (hvy : y.start_time < y.end_time)
    (hadj : x.end_time = y.start_time) :
    check_pair_conflict y x = none := by
  unfold check_pair_conflict
  rw [if_neg (by omega), if_neg (by omega),
    if_neg (fun hcon => absurd hcon.1 (by omega))]

theorem check_pair_conflict_none_of_adjacent {x y : ScheduleItem}
    (hvx : x.start_time < x.end_time) (hvy : y.start_time < y.end_time)
    (hadj : x.end_time = y.start_time)
    (hloc : pyLower x.location = pyLower y.location ∨
      x.location = "" ∨ y.location = "") :
    check_pair_conflict x y = none ∧ check_pair_conflict y x = none := by
  refine ⟨?_, check_pair_conflict_reverse_none hvx hvy hadj⟩
  have h3 : ¬(x.end_time = y.start_time ∧ x.location ≠ "" ∧ y.location ≠ "" ∧
      pyLower x.location ≠ pyLower y.location) := by
    rintro ⟨-, hx, hy, hl⟩
    rcases hloc with h | h | h
    · exact hl h
    · exact hx h
    · exact hy h
  unfold check_pair_conflict
  rw [if_neg (by omega), if_neg (by omega), if_neg h3]

theorem involves_pair_iff {x y : ScheduleItem} {c : Conflict} :
    involves_pair x y c = true ↔
      (c.event_a = x ∧ c.event_b = y) ∨ (c.event_a = y ∧ c.event_b = x) := by
  simp [involves_pair]

theorem involves_pair_comm (x y : ScheduleItem) :
    involves_pair x y = involves_pair y x := by
  funext c
  simp [involves_pair, Bool.or_comm]

theorem pairConflicts_mem {c : Conflict} :
    ∀ {l : List ScheduleItem}, c ∈ pairConflicts l →
      c.event_a ∈ l ∧ c.event_b ∈ l := by
  intro l
  induction l with
  | nil => intro hc; cases hc
  | cons a rest ih =>
      intro hc
      simp only [pairConflicts, List.mem_append] at hc
      rcases hc with hrow | htail
      · rcases List.mem_filterMap.mp hrow with ⟨b, hb, hfb⟩
        split at hfb
        · have hf := check_pair_conflict_fields hfb
          constructor
          · rw [hf.1]; exact List.mem_cons_self a rest
          · rw [hf.2]; exact List.mem_cons_of_mem a hb
        · exact Option.noConfusion hfb
      · have h := ih htail
        exact ⟨List.mem_cons_of_mem a h.1, List.mem_cons_of_mem a h.2⟩

theorem pairConflicts_involves_origin {x y : ScheduleItem} {c : Conflict} :
    ∀ {l : List ScheduleItem}, c ∈ pairConflicts l → involves_pair x y c = true →
      check_pair_conflict x y = some c ∨ check_pair_conflict y x = some c := by
  intro l
  induction l with
  | nil => intro hc _; cases hc
  | cons a rest ih =>
      intro hc hinv
      simp only [pairConflicts, List.mem_append] at hc
      rcases hc with hrow | htail
      · rcases List.mem_filterMap.mp hrow with ⟨b, hb, hfb⟩
        split at hfb
        · have hf := check_pair_conflict_fields hfb
          rcases involves_pair_iff.mp hinv with ⟨h1, h2⟩ | ⟨h1, h2⟩
          · have hax : a = x := hf.1.symm.trans h1
            have hby : b = y := hf.2.symm.trans h2
            left; rw [← hax, ← hby]; exact hfb
          · have hay : a = y := hf.1.symm.trans h1
            have hbx : b = x := hf.2.symm.trans h2
            right; rw [← hay, ← hbx]; exact hfb
        · exact Option.noConfusion hfb
      · exact ih htail hinv

theorem countP_filterMap_row (x y : ScheduleItem) (hxy : x ≠ y)
    (f : ScheduleItem → Option Conflict)
    (hf : ∀ b c, f b = some c → c.event_a = x ∧ c.event_b = b) :
    ∀ rest : List ScheduleItem,
      (rest.filterMap f).countP (involves_pair x y) =
        if (f y).isSome then rest.count y else 0 := by
  intro rest
  induction rest with
  | nil => simp
  | cons b bs ih =>
      rcases hfb : f b with _ | c
      · rw [List.filterMap_cons_none hfb, ih]
        by_cases hby : b = y
        · subst hby
          rw [hfb]
          simp
        · rw [List.count_cons_of_ne (fun h => hby h.symm)]
      · rw [List.filterMap_cons_some hfb, List.countP_cons, ih]
        have hfields := hf b c hfb
        by_cases hby : b = y
        · subst hby
          have hinv : involves_pair x b c = true :=
            involves_pair_iff.mpr (Or.inl ⟨hfields.1, hfields.2⟩)
          rw [hfb]
          simp only [Option.isSome_some, if_true, hinv, List.count_cons_self]
        · have hinv : involves_pair x y c = false := by
            cases hiv : involves_pair x y c
            · rfl
            · exfalso
              rcases involves_pair_iff.mp hiv with ⟨-, h2⟩ | ⟨h1, -⟩
              · exact hby (hfields.2.symm.trans h2)
              · exact hxy (hfields.1.symm.trans h1)
          rw [hinv, List.count_cons_of_ne (fun h => hby h.symm)]
          simp

theorem pairConflicts_countP_zero (x y : ScheduleItem) {l : List ScheduleItem}
    (h : x ∉ l ∨ y ∉ l) :
    (pairConflicts l).countP (involves_pair x y) = 0 := by
  rw [List.countP_eq_zero]
  intro c hc hinv
  have hm := pairConflicts_mem hc
  rcases involves_pair_iff.mp hinv with ⟨h1, h2⟩ | ⟨h1, h2⟩
  · rcases h with h | h
    · exact h (h1 ▸ hm.1)
    · exact h (h2 ▸ hm.2)
  · rcases h with h | h
    · exact h (h2 ▸ hm.2)
    · exact h (h1 ▸ hm.1)

theorem sublist_pair_of_mem {x y : ScheduleItem} {l : List ScheduleItem}
    (hx : x ∈ l) (hy : y ∈ l) (hxy : x ≠ y) :
    [x, y].Sublist l ∨ [y, x].Sublist l := by
  rcases List.append_of_mem hx with ⟨l1, l2, rfl⟩
  rcases List.mem_append.mp hy with hy1 | hy2
  · right
    have h1 : [y].Sublist l1 := List.singleton_sublist.mpr hy1
    have h2 : [x].Sublist (x :: l2) := List.Sublist.cons₂ x (List.nil_sublist l2)
    exact List.Sublist.append h1 h2
  · rcases List.mem_cons.mp hy2 with h | hy2
    · exact absurd h.symm hxy
    · left
      have h1 : [x, y].Sublist (x :: l2) :=
        List.Sublist.cons₂ x (List.singleton_sublist.mpr hy2)
      exact h1.trans (List.sublist_append_right l1 (x :: l2))

theorem charListLT_irrefl : ∀ as : List Char, charListLT as as = false := by
  intro as
  induction as with
  | nil => rfl
  | cons a as' ih => simp [charListLT, lt_irrefl, ih]

theorem strLT_irrefl (s : String) : ¬ strLT s s := by
  unfold strLT
  rw [charListLT_irrefl]
  simp

theorem pairConflicts_countP_sublist (x y : ScheduleItem) (hxy : x ≠ y) :
    ∀ l : List ScheduleItem, l.Nodup → [x, y].Sublist l →
      (pairConflicts l).countP (involves_pair x y) =
        if x.date = y.date ∧ (check_pair_conflict x y).isSome then 1 else 0 := by
  intro l
  induction l with
  | nil =>
      intro _ hs
      rw [List.sublist_nil] at hs
      cases hs
  | cons a rest ih =>
      intro hnd hs
      have hndr := (List.nodup_cons.mp hnd).2
      have hanr := (List.nodup_cons.mp hnd).1
      simp only [pairConflicts, List.countP_append]
      by_cases hax : a = x
      · subst hax
        have hy : y ∈ rest := by
          cases hs with
          | cons _ h2 => exact absurd (h2.subset (List.mem_cons_self a [y])) hanr
          | cons₂ _ h2 => exact List.singleton_sublist.mp h2
        have hfprop : ∀ b c,
            (if a.date = b.date then check_pair_conflict a b else none) = some c →
            c.event_a = a ∧ c.event_b = b := by
          intro b c hbc
          split at hbc
          · exact check_pair_conflict_fields hbc
          · exact Option.noConfusion hbc
        rw [countP_filterMap_row a y hxy _ hfprop rest,
          pairConflicts_countP_zero a y (Or.inl hanr),
          List.count_eq_one_of_mem hndr hy]
        by_cases hdate : a.date = y.date
        · rw [if_pos hdate]
          by_cases hcs : (check_pair_conflict a y).isSome = true
          · rw [if_pos hcs, if_pos ⟨hdate, hcs⟩]
          · rw [if_neg hcs, if_neg (fun hcon => hcs hcon.2)]
        · rw [if_neg hdate]
          simp only [Option.isSome_none, Bool.false_eq_true, if_false, Nat.zero_add,
            Nat.add_zero]
          rw [if_neg (fun hcon => hdate hcon.1)]
      · have hs' : [x, y].Sublist rest := by
          cases hs with
          | cons _ h2 => exact h2
          | cons₂ _ h2 => exact absurd rfl hax
        have hay : a ≠ y := by
          intro h
          apply hanr
          rw [h]
          exact hs'.subset (by simp)
        have hrow : ((rest.filterMap (fun b =>
            if a.date = b.date then check_pair_conflict a b else none)).countP
              (involves_pair x y)) = 0 := by
          rw [List.countP_eq_zero]
          intro c hc hinv
          rcases List.mem_filterMap.mp hc with ⟨b, hb, hfb⟩
          split at hfb
          · have hf := check_pair_conflict_fields hfb
            rcases involves_pair_iff.mp hinv with ⟨h1, -⟩ | ⟨h1, -⟩
            · exact hax (hf.1.symm.trans h1)
            · exact hay (hf.1.symm.trans h1)
          · exact Option.noConfusion hfb
        rw [hrow, ih hndr hs', Nat.zero_add]

theorem check_conflicts_eq (ex : List ScheduleItem) {events : List ScheduleItem}
    (h : events ≠ []) :
    check_conflicts ex (some events) =
      pairConflicts (List.insertionSort dateStartLE events) := by
  cases events with
  | nil => exact absurd rfl h
  | cons hd tl => rfl

theorem check_new_event_conflicts_eq (ex : List ScheduleItem) (n : ScheduleItem)
    {l : List ScheduleItem} (h : l ≠ []) :
    check_new_event_conflicts ex n (some l) =
      l.filterMap (fun existing =>
        if existing.date = n.date then check_pair_conflict n existing else none) := by
  cases l with
  | nil => exact absurd rfl h
  | cons hd tl => rfl

/-- C3: in a duplicate-free schedule, two distinct same-date events with
identical intervals give rise to exactly one conflict for that pair in the
output of `check_conflicts`, and every conflict reported for the pair is a
DoubleBooking of high severity.  More generally no unordered pair ever
yields more than one conflict, and the kind of any pairwise conflict follows
the strict priority order DoubleBooking, then TimeOverlap, then BackToBack
(first match wins). -/
theorem C3_double_booking_priority (ex events : List ScheduleItem)
    (a b : ScheduleItem) (hnd : events.Nodup) (ha : a ∈ events) (hb : b ∈ events)
    (hab : a ≠ b) (hdate : a.date = b.date) (hs : a.start_time = b.start_time)
    (he : a.end_time = b.end_time) :
    (check_conflicts ex (some events)).countP (involves_pair a b) = 1 ∧
    (∀ c ∈ check_conflicts ex (some events), involves_pair a b c = true →
      c.conflict_type = ConflictType.DOUBLE_BOOKING ∧ c.severity = "high") ∧
    (∀ x y : ScheduleItem, x ≠ y →
      (check_conflicts ex (some events)).countP (involves_pair x y) ≤ 1) ∧
    (∀ (x y : ScheduleItem) (c : Conflict), check_pair_conflict x y = some c →
      ((x.start_time = y.start_time ∧ x.end_time = y.end_time) →
        c.conflict_type = ConflictType.DOUBLE_BOOKING) ∧
      (¬(x.start_time = y.start_time ∧ x.end_time = y.end_time) →
        (x.start_time < y.end_time ∧ y.start_time < x.end_time) →
        c.conflict_type = ConflictType.TIME_OVERLAP) ∧
      (¬(x.start_time = y.start_time ∧ x.end_time = y.end_time) →
        ¬(x.start_time < y.end_time ∧ y.start_time < x.end_time) →
        c.conflict_type = ConflictType.BACK_TO_BACK)) := by
  have hnil : events ≠ [] := List.ne_nil_of_mem ha
  have hCC := check_conflicts_eq ex hnil
  have hperm := List.perm_insertionSort dateStartLE events
  have hnd' : (List.insertionSort dateStartLE events).Nodup := hperm.nodup_iff.mpr hnd
  have ha' : a ∈ List.insertionSort dateStartLE events := hperm.mem_iff.mpr ha
  have hb' : b ∈ List.insertionSort dateStartLE events := hperm.mem_iff.mpr hb
  have hfireab : check_pair_conflict a b =
      some ⟨ConflictType.DOUBLE_BOOKING, a, b, "high"⟩ :=
    check_pair_conflict_identical hs he
  have hfireba : check_pair_conflict b a =
      some ⟨ConflictType.DOUBLE_BOOKING, b, a, "high"⟩ :=
    check_pair_conflict_identical hs.symm he.symm
  refine ⟨?_, ?_, ?_, ?_⟩
  · rw [hCC]
    rcases sublist_pair_of_mem ha' hb' hab with hsub | hsub
    · rw [pairConflicts_countP_sublist a b hab _ hnd' hsub,
        if_pos ⟨hdate, by rw [hfireab]; rfl⟩]
    · rw [involves_pair_comm a b,
        pairConflicts_countP_sublist b a (Ne.symm hab) _ hnd' hsub,
        if_pos ⟨hdate.symm, by rw [hfireba]; rfl⟩]
  · intro c hc hinv
    rw [hCC] at hc
    rcases pairConflicts_involves_origin hc hinv with h | h
    · rw [hfireab] at h
      injection h with h
      exact ⟨by rw [← h], by rw [← h]⟩
    · rw [hfireba] at h
      injection h with h
      exact ⟨by rw [← h], by rw [← h]⟩
  · intro x y hxy
    rw [hCC]
    by_cases hx : x ∈ List.insertionSort dateStartLE events
    · by_cases hy : y ∈ List.insertionSort dateStartLE events
      · rcases sublist_pair_of_mem hx hy hxy with hsub | hsub
        · rw [pairConflicts_countP_sublist x y hxy _ hnd' hsub]
          split <;> omega
        · rw [involves_pair_comm x y,
            pairConflicts_countP_sublist y x (Ne.symm hxy) _ hnd' hsub]
          split <;> omega
      · rw [pairConflicts_countP_zero x y (Or.inr hy)]
        omega
    · rw [pairConflicts_countP_zero x y (Or.inl hx)]
      omega
  · intro x y c hcp
    have h := check_pair_conflict_priority x y c hcp
    exact ⟨fun hid_ => (h.1 hid_).1, fun hn hov => (h.2.1 hn hov).1,
      fun hn hno => (h.2.2 hn hno).1⟩

/-- C3 witness: two concrete same-date events with identical 10:00-12:00
intervals produce exactly one conflict for the pair. -/
theorem C3_double_booking_witness :
    (check_conflicts []
        (some [⟨"Math", EventType.LECTURE, "R1", "2025-12-15", 600, 720, none, none⟩,
               ⟨"Phys", EventType.LECTURE, "R2", "2025-12-15", 600, 720, none, none⟩])).countP
      (involves_pair
        ⟨"Math", EventType.LECTURE, "R1", "2025-12-15", 600, 720, none, none⟩
        ⟨"Phys", EventType.LECTURE, "R2", "2025-12-15", 600, 720, none, none⟩) = 1 :=
  (C3_double_booking_priority []
    [⟨"Math", EventType.LECTURE, "R1", "2025-12-15", 600, 720, none, none⟩,
     ⟨"Phys", EventType.LECTURE, "R2", "2025-12-15", 600, 720, none, none⟩]
    ⟨"Math", EventType.LECTURE, "R1", "2025-12-15", 600, 720, none, none⟩
    ⟨"Phys", EventType.LECTURE, "R2", "2025-12-15", 600, 720, none, none⟩
    (by decide) (by decide) (by decide) (by decide) rfl rfl rfl).1

/-- C4 counterexample: a candidate event that starts exactly when an
existing event ends (existing 10:00-12:00 `Room A`, candidate 12:00-13:00
`Room B`, both locations non-empty and different) satisfies the claim's
"one ends exactly when the other starts" premise, yet
`check_new_event_conflicts` reports no conflict at all: the pair check is
only applied as (candidate, existing) and only tests `candidate.end ==
existing.start`, so the reversed adjacency is invisible to detectAgainst. -/
theorem C4_counterexample :
    (⟨"Old", EventType.OTHER, "Room A", "2025-12-15", 600, 720, none, none⟩ :
        ScheduleItem).end_time =
      (⟨"New", EventType.OTHER, "Room B", "2025-12-15", 720, 780, none, none⟩ :
        ScheduleItem).start_time ∧
    pyLower "Room A" ≠ pyLower "Room B" ∧
    check_new_event_conflicts []
      ⟨"New", EventType.OTHER, "Room B", "2025-12-15", 720, 780, none, none⟩
      (some [⟨"Old", EventType.OTHER, "Room A", "2025-12-15", 600, 720, none, none⟩])
      = [] :=
  ⟨rfl, by decide, by decide⟩

/-- C4 (amended): for valid events (positive-length intervals),
detectAgainst reports exactly one BackToBack conflict of medium severity
when the candidate's end equals an existing event's start and both
locations are non-empty and differ case-insensitively; it reports nothing
for that pair when the locations agree case-insensitively or either is
empty, and also nothing when the adjacency is reversed (the existing event
ends at the candidate's start).  Over a full duplicate-free schedule,
`check_conflicts` reports exactly one medium BackToBack for every same-date
adjacent pair with differing non-empty locations (the sort by (date, start)
always places the earlier event first, so that direction is always the one
tested), and nothing for such a pair when the locations agree or one is
empty. -/
theorem C4_back_to_back (ex l : List ScheduleItem) (n e : ScheduleItem)
    (hnd : l.Nodup) (hel : e ∈ l) (hvn : n.start_time < n.end_time)
    (hve : e.start_time < e.end_time) (hdate : n.date = e.date) :
    (n.end_time = e.start_time → n.location ≠ "" → e.location ≠ "" →
      pyLower n.location ≠ pyLower e.location →
      (check_new_event_conflicts ex n (some l)).countP (involves_pair n e) = 1 ∧
      ∀ c ∈ check_new_event_conflicts ex n (some l), involves_pair n e c = true →
        c.conflict_type = ConflictType.BACK_TO_BACK ∧ c.severity = "medium") ∧
    (n.end_time = e.start_time →
      (pyLower n.location = pyLower e.location ∨ n.location = "" ∨ e.location = "") →
      (check_new_event_conflicts ex n (some l)).countP (involves_pair n e) = 0) ∧
    (e.end_time = n.start_time →
      (check_new_event_conflicts ex n (some l)).countP (involves_pair n e) = 0) ∧
    (∀ (events : List ScheduleItem) (a b : ScheduleItem), events.Nodup →
      a ∈ events → b ∈ events → a.start_time < a.end_time →
      b.start_time < b.end_time → a.date = b.date → a.end_time = b.start_time →
      (a.location ≠ "" → b.location ≠ "" → pyLower a.location ≠ pyLower b.location →
        (check_conflicts ex (some events)).countP (involves_pair a b) = 1 ∧
        ∀ c ∈ check_conflicts ex (some events), involves_pair a b c = true →
          c.conflict_type = ConflictType.BACK_TO_BACK ∧ c.severity = "medium") ∧
      ((pyLower a.location = pyLower b.location ∨ a.location = "" ∨ b.location = "") →
        (check_conflicts ex (some events)).countP (involves_pair a b) = 0)) := by
  have hln : l ≠ [] := List.ne_nil_of_mem hel
  have hD := check_new_event_conflicts_eq ex n hln
  have hfprop : ∀ b c,
      (if b.date = n.date then check_pair_conflict n b else none) = some c →
      c.event_a = n ∧ c.event_b = b := by
    intro b c hbc
    split at hbc
    · exact check_pair_conflict_fields hbc
    · exact Option.noConfusion hbc
  refine ⟨?_, ?_, ?_, ?_⟩
  · intro hadj hlocn hloce hll
    have hne : n ≠ e := by
      intro h
      rw [h] at hadj hvn
      omega
    have hfire := check_pair_conflict_btb hvn hadj hlocn hloce hll
    constructor
    · have hfy : (if e.date = n.date then check_pair_conflict n e else none) =
          some ⟨ConflictType.BACK_TO_BACK, n, e, "medium"⟩ := by
        rw [if_pos hdate.symm, hfire]
      rw [hD, countP_filterMap_row n e hne _ hfprop l, hfy]
      simp only [Option.isSome_some, if_true]
      exact List.count_eq_one_of_mem hnd hel
    · intro c hc hinv
      rw [hD] at hc
      rcases List.mem_filterMap.mp hc with ⟨b, hb, hfb⟩
      split at hfb
      · have hf := check_pair_conflict_fields hfb
        rcases involves_pair_iff.mp hinv with ⟨-, h2⟩ | ⟨h1, -⟩
        · have hbe : b = e := hf.2.symm.trans h2
          subst hbe
          rw [hfire] at hfb
          injection hfb with hfb
          exact ⟨by rw [← hfb], by rw [← hfb]⟩
        · exact absurd (hf.1.symm.trans h1) hne
      · exact Option.noConfusion hfb
  · intro hadj hloc
    have hne : n ≠ e := by
      intro h
      rw [h] at hadj hvn
      omega
    have hnone := (check_pair_conflict_none_of_adjacent hvn hve hadj hloc).1
    have hfy : (if e.date = n.date then check_pair_conflict n e else none) = none := by
      rw [if_pos hdate.symm, hnone]
    rw [hD, countP_filterMap_row n e hne _ hfprop l, hfy]
    rfl
  · intro hadj
    have hne : n ≠ e := by
      intro h
      rw [h] at hadj
      omega
    have hnone : check_pair_conflict n e = none :=
      check_pair_conflict_reverse_none hve hvn hadj
    have hfy : (if e.date = n.date then check_pair_conflict n e else none) = none := by
      rw [if_pos hdate.symm, hnone]
    rw [hD, countP_filterMap_row n e hne _ hfprop l, hfy]
    rfl
  · intro events a b hnd2 ha hb hva hvb hdate2 hadj
    have hab : a ≠ b := by
      intro h
      rw [h] at hadj
      omega
    have hnil2 : events ≠ [] := List.ne_nil_of_mem ha
    have hCC := check_conflicts_eq ex hnil2
    have hperm := List.perm_insertionSort dateStartLE events
    have hnd' := hperm.nodup_iff.mpr hnd2
    have ha' := hperm.mem_iff.mpr ha
    have hb' := hperm.mem_iff.mpr hb
    have hsub : [a, b].Sublist (List.insertionSort dateStartLE events) := by
      rcases sublist_pair_of_mem ha' hb' hab with hsub | hsub
      · exact hsub
      · exfalso
        have hsort := List.sorted_insertionSort dateStartLE events
        have hpw := List.Pairwise.sublist hsub hsort
        have hba : dateStartLE b a := (List.pairwise_cons.mp hpw).1 a (by simp)
        rcases hba with hlt | ⟨heq, hle⟩
        · rw [hdate2] at hlt
          exact strLT_irrefl _ hlt
        · omega
    constructor
    · intro hla hlb hld
      have hfireab := check_pair_conflict_btb hva hadj hla hlb hld
      constructor
      · rw [hCC, pairConflicts_countP_sublist a b hab _ hnd' hsub,
          if_pos ⟨hdate2, by rw [hfireab]; rfl⟩]
      · intro c hc hinv
        rw [hCC] at hc
        rcases pairConflicts_involves_origin hc hinv with h | h
        · rw [hfireab] at h
          injection h with h
          exact ⟨by rw [← h], by rw [← h]⟩
        · rw [check_pair_conflict_reverse_none hva hvb hadj] at h
          exact Option.noConfusion h
    · intro hloc
      rw [hCC, List.countP_eq_zero]
      intro c hc hinv
      have hnone := check_pair_conflict_none_of_adjacent hva hvb hadj hloc
      rcases pairConflicts_involves_origin hc hinv with h | h
      · rw [hnone.1] at h
        exact Option.noConfusion h
      · rw [hnone.2] at h
        exact Option.noConfusion h

/-- C4 witness: a candidate ending exactly when a differently-located
existing event starts yields exactly one conflict for the pair, while the
reversed adjacency yields none. -/
theorem C4_back_to_back_witness :
    (check_new_event_conflicts []
        ⟨"New", EventType.OTHER, "Room B", "2025-12-15", 540, 600, none, none⟩
        (some [⟨"Old", EventType.OTHER, "Room A", "2025-12-15", 600, 720,
          none, none⟩])).countP
      (involves_pair
        ⟨"New", EventType.OTHER, "Room B", "2025-12-15", 540, 600, none, none⟩
        ⟨"Old", EventType.OTHER, "Room A", "2025-12-15", 600, 720, none, none⟩) = 1 ∧
    (check_new_event_conflicts []
        ⟨"New2", EventType.OTHER, "Room B", "2025-12-15", 720, 780, none, none⟩
        (some [⟨"Old", EventType.OTHER, "Room A", "2025-12-15", 600, 720,
          none, none⟩])).countP
      (involves_pair
        ⟨"New2", EventType.OTHER, "Room B", "2025-12-15", 720, 780, none, none⟩
        ⟨"Old", EventType.OTHER, "Room A", "2025-12-15", 600, 720, none, none⟩) = 0 :=
  ⟨((C4_back_to_back []
      [⟨"Old", EventType.OTHER, "Room A", "2025-12-15", 600, 720, none, none⟩]
      ⟨"New", EventType.OTHER, "Room B", "2025-12-15", 540, 600, none, none⟩
      ⟨"Old", EventType.OTHER, "Room A", "2025-12-15", 600, 720, none, none⟩
      (by decide) (by decide) (by decide) (by decide) rfl).1
      rfl (by decide) (by decide) (by decide)).1,
   (C4_back_to_back []
      [⟨"Old", EventType.OTHER, "Room A", "2025-12-15", 600, 720, none, none⟩]
      ⟨"New2", EventType.OTHER, "Room B", "2025-12-15", 720, 780, none, none⟩
      ⟨"Old", EventType.OTHER, "Room A", "2025-12-15", 600, 720, none, none⟩
      (by decide) (by decide) (by decide) (by decide) rfl).2.2.1 rfl⟩

theorem batch_counts_foldl (ag : Option (List ScheduleItem)) (hcf : Bool)
    (answer : Option String) (target : String) :
    ∀ (l : List ScheduleItem) (st : BatchState),
      (l.foldl (batch_step ag true hcf answer target) st).rescheduled +
        (l.foldl (batch_step ag true hcf answer target) st).failed =
        st.rescheduled + st.failed + l.length := by
  intro l
  induction l with
  | nil => intro st; simp
  | cons e rest ih =>
      intro st
      rw [List.foldl_cons, ih]
      have hstep : (batch_step ag true hcf answer target st e).rescheduled +
          (batch_step ag true hcf answer target st e).failed =
          st.rescheduled + st.failed + 1 := by
        simp only [batch_step]
        cases hfind : find_best_slot hcf st.schedule target (get_duration e) with
        | none =>
            dsimp only
            omega
        | some slot =>
            by_cases hsucc : (execute_change ag st.schedule
                ⟨ChangeType.RESCHEDULE, some e,
                 { date := some target, start_time := some slot.1,
                   end_time := some slot.2 }⟩ false answer).1.success
            · simp [hsucc]
              omega
            · simp [hsucc]
              omega
      simp only [List.length_cons]
      omega

/-- C7 counterexample: a single 30-minute event is batch-rescheduled onto a
date whose first free slot of sufficient length starts at 08:00 (minute
480), yet the event is placed at 10:00 (minute 600): `find_best_slot`
prefers the first slot starting in hours 9-11 over the chronologically
first qualifying slot, contradicting the claim that each event is assigned
the first free slot of at least its duration. -/
theorem C7_counterexample :
    (batch_reschedule (some []) true true none
        [⟨"Mover", EventType.MEETING, "R2", "2025-12-10", 780, 810, none, none⟩]
        "2025-12-15"
        [⟨"Busy", EventType.MEETING, "R1", "2025-12-15", 540, 600, none, none⟩,
         ⟨"Mover", EventType.MEETING, "R2", "2025-12-10", 780, 810, none, none⟩]).schedule
      = [⟨"Busy", EventType.MEETING, "R1", "2025-12-15", 540, 600, none, none⟩,
         ⟨"Mover", EventType.MEETING, "R2", "2025-12-15", 600, 630, none, none⟩] ∧
    (find_free_slots
        [⟨"Busy", EventType.MEETING, "R1", "2025-12-15", 540, 600, none, none⟩,
         ⟨"Mover", EventType.MEETING, "R2", "2025-12-10", 780, 810, none, none⟩]
        "2025-12-15" 30).head? = some (480, 540) ∧
    (480 : Nat) ≠ 600 :=
  ⟨by decide, by decide, by decide⟩

/-- C7 (amended): with a change agent wired, every batch run reports
rescheduled + failed equal to the number of input events; the events are
attempted in descending order of duration (the processed list is a
duration-sorted permutation of the input, stable like the source's sort);
each attempted event is offered `find_best_slot`'s choice — the first free
slot starting in hours 9-11, else the first starting in hours 13-16, else
the chronologically first free slot, with end = start + duration and `none`
exactly when the date has no qualifying free slot; and an event with no
qualifying slot is recorded as failed with the schedule untouched. -/
theorem C7_batch_reschedule :
    (∀ (ag : Option (List ScheduleItem)) (hcf : Bool) (answer : Option String)
        (events : List ScheduleItem) (target : String) (sch : List ScheduleItem),
      (batch_reschedule ag true hcf answer events target sch).rescheduled +
        (batch_reschedule ag true hcf answer events target sch).failed =
        events.length) ∧
    (∀ events : List ScheduleItem,
      List.Sorted durationDescLE (List.insertionSort durationDescLE events) ∧
      List.Perm (List.insertionSort durationDescLE events) events) ∧
    (∀ (sch : List ScheduleItem) (d : String) (dur : Int),
      (find_best_slot true sch d dur = none ↔ find_free_slots sch d dur = []) ∧
      (∀ t, (find_free_slots sch d dur).find? morning_slot = some t →
        find_best_slot true sch d dur = some (t.1, add_minutes t.1 dur)) ∧
      ((find_free_slots sch d dur).find? morning_slot = none →
        ∀ t, (find_free_slots sch d dur).find? afternoon_slot = some t →
        find_best_slot true sch d dur = some (t.1, add_minutes t.1 dur)) ∧
      ((find_free_slots sch d dur).find? morning_slot = none →
        (find_free_slots sch d dur).find? afternoon_slot = none →
        ∀ s ss, find_free_slots sch d dur = s :: ss →
        find_best_slot true sch d dur = some (s.1, add_minutes s.1 dur))) ∧
    (∀ (ag : Option (List ScheduleItem)) (hch hcf : Bool) (answer : Option String)
        (target : String) (st : BatchState) (e : ScheduleItem),
      find_best_slot hcf st.schedule target (get_duration e) = none →
      batch_step ag hch hcf answer target st e =
        ⟨st.rescheduled, st.failed + 1, st.schedule⟩) := by
  refine ⟨?_, ?_, ?_, ?_⟩
  · intro ag hcf answer events target sch
    unfold batch_reschedule
    rw [batch_counts_foldl]
    have hlen := (List.perm_insertionSort durationDescLE events).length_eq
    simp only [hlen]
    omega
  · intro events
    exact ⟨List.sorted_insertionSort durationDescLE events,
      List.perm_insertionSort durationDescLE events⟩
  · intro sch d dur
    refine ⟨⟨?_, ?_⟩, ?_, ?_, ?_⟩
    · intro h
      by_cases hfe : find_free_slots sch d dur = []
      · exact hfe
      · exfalso
        obtain ⟨s, ss, hF⟩ : ∃ s ss, find_free_slots sch d dur = s :: ss := by
          cases hG : find_free_slots sch d dur with
          | nil => exact absurd hG hfe
          | cons s ss => exact ⟨s, ss, rfl⟩
        unfold find_best_slot at h
        rw [if_neg (by decide)] at h
        rw [hF] at h
        simp only [List.isEmpty_cons, Bool.false_eq_true, if_false] at h
        cases hm : (s :: ss).find? morning_slot with
        | some t => rw [hm] at h; exact Option.noConfusion h
        | none =>
            rw [hm] at h
            cases ha : (s :: ss).find? afternoon_slot with
            | some t => rw [ha] at h; exact Option.noConfusion h
            | none => rw [ha] at h; exact Option.noConfusion h
    · intro h
      unfold find_best_slot
      rw [if_neg (by decide), h]
      rfl
    · intro t hm
      have hne : ¬ (find_free_slots sch d dur).isEmpty = true := by
        intro h
        rw [List.isEmpty_iff.mp h] at hm
        exact Option.noConfusion hm
      unfold find_best_slot
      rw [if_neg (by decide), if_neg hne, hm]
    · intro hm t ha
      have hne : ¬ (find_free_slots sch d dur).isEmpty = true := by
        intro h
        rw [List.isEmpty_iff.mp h] at ha
        exact Option.noConfusion ha
      unfold find_best_slot
      rw [if_neg (by decide), if_neg hne, hm, ha]
    · intro hm ha s ss hF
      have hne : ¬ (find_free_slots sch d dur).isEmpty = true := by
        rw [hF]
        simp
      unfold find_best_slot
      rw [if_neg (by decide), if_neg hne, hm, ha, hF]
  · intro ag hch hcf answer target st e hfind
    simp only [batch_step, hfind]

/-- C7 witness: the counts identity at a concrete one-event batch, and the
failed-with-no-mutation step at a concrete state where no slot is found. -/
theorem C7_batch_reschedule_witness :
    (batch_reschedule (some []) true true none
        [⟨"Mover", EventType.MEETING, "R2", "2025-12-10", 780, 810, none, none⟩]
        "2025-12-15"
        [⟨"Busy", EventType.MEETING, "R1", "2025-12-15", 540, 600, none, none⟩,
         ⟨"Mover", EventType.MEETING, "R2", "2025-12-10", 780, 810, none, none⟩]).rescheduled +
      (batch_reschedule (some []) true true none
        [⟨"Mover", EventType.MEETING, "R2", "2025-12-10", 780, 810, none, none⟩]
        "2025-12-15"
        [⟨"Busy", EventType.MEETING, "R1", "2025-12-15", 540, 600, none, none⟩,
         ⟨"Mover", EventType.MEETING, "R2", "2025-12-10", 780, 810, none, none⟩]).failed = 1 ∧
    batch_step none true false none "2025-12-15" ⟨0, 0, []⟩
        ⟨"Long", EventType.OTHER, "R", "2025-12-10", 600, 660, none, none⟩ =
      ⟨0, 1, []⟩ :=
  ⟨C7_batch_reschedule.1 (some []) true none
      [⟨"Mover", EventType.MEETING, "R2", "2025-12-10", 780, 810, none, none⟩]
      "2025-12-15"
      [⟨"Busy", EventType.MEETING, "R1", "2025-12-15", 540, 600, none, none⟩,
       ⟨"Mover", EventType.MEETING, "R2", "2025-12-10", 780, 810, none, none⟩],
   C7_batch_reschedule.2.2.2 none true false none "2025-12-15" ⟨0, 0, []⟩
      ⟨"Long", EventType.OTHER, "R", "2025-12-10", 600, 660, none, none⟩ rfl⟩

end AgenticScheduler
